import Mathlib

/-!
Verification of the QiskitHumanEval evaluation harness
(`01_qiskit-human-eval/evaluate_qiskit_humaneval.py`).

Python strings are embedded as `List Char` (`PyStr`); Python `str` operations
used by the harness (`in`, `re.search` for the literal-prefix patterns the
code uses, `.strip()`, slicing) are defined below and proved correct against
first-occurrence specifications.
-/

namespace QHE

/-- Embedding of a Python `str` as a list of characters. -/
abbrev PyStr := List Char

/-- Conversion from a Lean string literal. -/
def lit (s : String) : PyStr := s.data

/-- The characters Python's `str.strip()` and the regex class `\s` treat as
whitespace (ASCII part; the harness's sentinels and messages are ASCII). -/
def isPySpace (c : Char) : Bool :=
  c == ' ' || c == '\t' || c == '\n' || c == '\r' || c == '\x0b' || c == '\x0c'

/-- Python `s.strip()`: remove leading and trailing whitespace. -/
def pyStrip (s : PyStr) : PyStr :=
  ((s.dropWhile isPySpace).reverse.dropWhile isPySpace).reverse

/-- Predicate: `pat` occurs in `s` starting at index `i`. -/
def occursAt (pat s : PyStr) (i : Nat) : Prop := pat <+: s.drop i

instance (pat s : PyStr) (i : Nat) : Decidable (occursAt pat s i) := by
  unfold occursAt; infer_instance

/-- Index of the first occurrence of `pat` in `s` (the index found by
`re.search` for a literal pattern, and the occurrence tested by Python's
`in`). -/
def findSub (pat : PyStr) : PyStr → Option Nat
  | [] => if pat.isEmpty then some 0 else none
  | c :: rest =>
    if pat.isPrefixOf (c :: rest) then some 0
    else (findSub pat rest).map (· + 1)

/-- Python's `pat in s`. -/
def containsSub (pat s : PyStr) : Bool := (findSub pat s).isSome

/-- Split `s` at the first occurrence of `pat`: the text before the
occurrence and the text after it. -/
def splitAtSub (pat s : PyStr) : Option (PyStr × PyStr) :=
  (findSub pat s).map fun i => (s.take i, s.drop (i + pat.length))

/-- Bridge from the Boolean `isPrefixOf` to the prefix relation. -/
theorem isPrefixOf_eq_true_iff {a b : PyStr} : a.isPrefixOf b = true ↔ a <+: b :=
  List.isPrefixOf_iff_prefix

theorem findSub_some_occursAt {pat s : PyStr} {i : Nat}
    (h : findSub pat s = some i) : occursAt pat s i := by
  induction s generalizing i with
  | nil =>
    unfold findSub at h
    split at h
    · cases h
      simp_all [occursAt, List.isEmpty_iff]
    · cases h
  | cons c rest ih =>
    unfold findSub at h
    split at h
    · cases h
      simpa [occursAt] using isPrefixOf_eq_true_iff.mp (by assumption)
    · rcases Option.map_eq_some'.mp h with ⟨j, hj, rfl⟩
      simpa [occursAt] using ih hj

theorem findSub_some_minimal {pat s : PyStr} {i : Nat}
    (h : findSub pat s = some i) : ∀ j < i, ¬ occursAt pat s j := by
  induction s generalizing i with
  | nil =>
    unfold findSub at h
    split at h
    · cases h; omega
    · cases h
  | cons c rest ih =>
    unfold findSub at h
    split at h
    · cases h; omega
    · rcases Option.map_eq_some'.mp h with ⟨i', hi', rfl⟩
      intro j hj
      cases j with
      | zero =>
        intro hocc
        simp only [occursAt, List.drop_zero] at hocc
        exact absurd (isPrefixOf_eq_true_iff.mpr hocc) (by simp_all)
      | succ j' =>
        intro hocc
        exact ih hi' j' (by omega) (by simpa [occursAt] using hocc)

theorem findSub_none {pat s : PyStr} (h : findSub pat s = none) :
    ∀ j, ¬ occursAt pat s j := by
  induction s with
  | nil =>
    intro j hocc
    rcases hocc with ⟨t, ht⟩
    simp only [List.drop_nil] at ht
    have hpat : pat = [] := by
      cases pat
      · rfl
      · simp at ht
    subst hpat
    simp [findSub] at h
  | cons c rest ih =>
    unfold findSub at h
    split at h
    · cases h
    · intro j hocc
      cases j with
      | zero =>
        simp only [occursAt, List.drop_zero] at hocc
        exact absurd (isPrefixOf_eq_true_iff.mpr hocc) (by simp_all)
      | succ j' =>
        have hrest : findSub pat rest = none := by
          cases hr : findSub pat rest <;> simp [hr] at h ⊢
        exact ih hrest j' (by simpa [occursAt] using hocc)

theorem findSub_of_occursAt {pat s : PyStr} {j : Nat} (h : occursAt pat s j) :
    ∃ i, i ≤ j ∧ findSub pat s = some i := by
  cases hf : findSub pat s with
  | none => exact absurd h (findSub_none hf j)
  | some i =>
    refine ⟨i, ?_, rfl⟩
    by_contra hij
    exact findSub_some_minimal hf j (by omega) h

/-- Correctness of `containsSub`: `s` contains `pat` iff `pat` occurs somewhere in `s`. -/
theorem containsSub_iff {pat s : PyStr} :
    containsSub pat s = true ↔ ∃ i, occursAt pat s i := by
  constructor
  · intro h
    rcases Option.isSome_iff_exists.mp h with ⟨i, hi⟩
    exact ⟨i, findSub_some_occursAt hi⟩
  · rintro ⟨i, hi⟩
    rcases findSub_of_occursAt hi with ⟨i', _, hi'⟩
    simp [containsSub, hi']

/-- An occurrence exhibited by an explicit decomposition of the text. -/
theorem occursAt_of_append {s A t p : PyStr} {i : Nat}
    (h : s = A ++ (p ++ t)) (hi : i = A.length) : occursAt p s i := by
  subst h; subst hi
  unfold occursAt
  rw [List.drop_left]
  exact ⟨t, rfl⟩

-- ---------------------------------------------------------------------------
-- CodeAssembler: EXEC_TEMPLATE.format (lines 172-193 and 288-293)
-- ---------------------------------------------------------------------------

/-- The fixed text of `EXEC_TEMPLATE` before the `prompt` placeholder. -/
def TPL_HEAD : PyStr := lit "# === BEGIN PROMPT (dataset) ===\n"

/-- Between the `prompt` and `completion` placeholders. -/
def TPL_MID1 : PyStr := lit "\n\n# === BEGIN MODEL COMPLETION ===\n"

/-- Between the `completion` and `test_code` placeholders. -/
def TPL_MID2 : PyStr := lit "\n\n# === BEGIN TEST CODE (dataset) ===\n"

/-- Between the `test_code` and `entry_point` placeholders (the harness
header up to `check(`). -/
def TPL_MID3 : PyStr :=
  lit "\n\n# === HARNESS ===\ndef __run_check():\n    # Import the solution function by name and run dataset\x27s check()\n    return check("

/-- The fixed tail of the template after the `entry_point` placeholder. -/
def TPL_TAIL : PyStr :=
  lit ")\n\nif __name__ == \"__main__\":\n    try:\n        __run_check()\n        print(\"___QHE_PASS___\")\n    except Exception as e:\n        print(\"___QHE_FAIL___:\" + repr(e))\n"

/-- Line 288, `EXEC_TEMPLATE.format(prompt=..., completion=..., test_code=...,
entry_point=...)`: `str.format` substitutes the four placeholders
of the fixed template and inserts the argument strings verbatim. -/
def EXEC_TEMPLATE_format (prompt completion test_code entry_point : PyStr) : PyStr :=
  TPL_HEAD ++ prompt ++ TPL_MID1 ++ completion ++ TPL_MID2 ++ test_code ++
    TPL_MID3 ++ entry_point ++ TPL_TAIL

/-- Property: `a`, `b`, `c` occur in `s` as non-overlapping substrings, in this order. -/
def containsInOrder (s a b c : PyStr) : Prop :=
  ∃ i j k, occursAt a s i ∧ occursAt b s j ∧ occursAt c s k ∧
    i + a.length ≤ j ∧ j + b.length ≤ k

/-- C1: assembling the program is a total function (a Lean `def`; `str.format`
on the fixed template with all four placeholder arguments supplied never
fails), and its output contains the prompt, the completion, and the test text
as contiguous substrings, in that order. -/
theorem C1_assemble_contains_prompt_completion_test_in_order
    (prompt completion test_code entry_point : PyStr) :
    containsInOrder (EXEC_TEMPLATE_format prompt completion test_code entry_point)
      prompt completion test_code := by
  refine ⟨TPL_HEAD.length,
          TPL_HEAD.length + prompt.length + TPL_MID1.length,
          TPL_HEAD.length + prompt.length + TPL_MID1.length + completion.length +
            TPL_MID2.length, ?_, ?_, ?_, ?_, ?_⟩
  · exact occursAt_of_append
      (A := TPL_HEAD) (p := prompt)
      (t := TPL_MID1 ++ (completion ++ (TPL_MID2 ++ (test_code ++
        (TPL_MID3 ++ (entry_point ++ TPL_TAIL))))))
      (by simp only [EXEC_TEMPLATE_format, List.append_assoc]) rfl
  · exact occursAt_of_append
      (A := TPL_HEAD ++ (prompt ++ TPL_MID1)) (p := completion)
      (t := TPL_MID2 ++ (test_code ++ (TPL_MID3 ++ (entry_point ++ TPL_TAIL))))
      (by simp only [EXEC_TEMPLATE_format, List.append_assoc])
      (by simp only [List.length_append]; omega)
  · exact occursAt_of_append
      (A := TPL_HEAD ++ (prompt ++ (TPL_MID1 ++ (completion ++ TPL_MID2))))
      (p := test_code)
      (t := TPL_MID3 ++ (entry_point ++ TPL_TAIL))
      (by simp only [EXEC_TEMPLATE_format, List.append_assoc])
      (by simp only [List.length_append]; omega)
  · omega
  · omega

-- ---------------------------------------------------------------------------
-- IsolatedExecutor: run_in_subprocess (lines 195-226)
-- ---------------------------------------------------------------------------

/-- The success sentinel printed by the harness epilogue (line 190) and
tested at line 222. -/
def PASS_SENTINEL : PyStr := lit "___QHE_PASS___"

/-- The failure sentinel (with its `:` separator) printed at line 192 and
searched for at line 225. -/
def FAIL_SENTINEL : PyStr := lit "___QHE_FAIL___:"

/-- Lines 221-226: classification of the captured output.
`out = (p.stdout or "").strip()`; if the success sentinel occurs in `out`
return `(True, None)`; else `re.search(r"___QHE_FAIL___:(.*)$", out, re.M|re.S)`:
with `re.S` the group `(.*)` greedily reaches the end of the string (where `$`
matches), so at the first occurrence of the sentinel the captured group is
everything after it; if found, return its `.strip()` as the error, otherwise
return `"RuntimeError: " + out[:5000]`. -/
def classify_captured (stdout : Option PyStr) : Bool × Option PyStr :=
  let out := pyStrip (stdout.getD [])
  if containsSub PASS_SENTINEL out then (true, none)
  else
    match findSub FAIL_SENTINEL out with
    | some i => (false, some (pyStrip (out.drop (i + FAIL_SENTINEL.length))))
    | none => (false, some (lit "RuntimeError: " ++ out.take 5000))

/-- The behavior of the child process executing the assembled program: the
wall-clock seconds it needs, the text it prints (stdout and stderr are
combined by the launch options; `None` when nothing is captured), and its
exit code. -/
structure ChildProcess where
  runtime : Nat
  stdout : Option PyStr
  returncode : Int

/-- The two outcomes of the library call that launches and waits for the
child. `childKilled` records whether the child was forcibly terminated. -/
inductive RunCallResult
  | timeoutExpired (childKilled : Bool)
  | completedProc (stdout : Option PyStr) (returncode : Int)

/-- Model of the library call at lines 208-215,
`subprocess.run([sys.executable, "-I", "-B", src], stdout=PIPE, stderr=STDOUT,
timeout=timeout_sec, text=True, env=os.environ.copy())`: per that call's
documented contract, if the child does not finish within `timeout_sec`
seconds it is killed and waited for, then `TimeoutExpired` is raised;
otherwise the completed process is returned with its captured output and
exit code. -/
def subprocess_run (child : ChildProcess) (timeout_sec : Nat) : RunCallResult :=
  if timeout_sec < child.runtime then .timeoutExpired true
  else .completedProc child.stdout child.returncode

/-- The f-string `f"Timeout({timeout_sec}s)"` of line 217. -/
def timeout_message (timeout_sec : Nat) : PyStr :=
  lit "Timeout(" ++ (Nat.repr timeout_sec).data ++ lit "s)"

/-- Lines 195-226, `run_in_subprocess(code, timeout_sec)`, as a function of
the child's behavior: returns `(passed, error)`. The `TimeoutExpired` branch
(lines 216-217) yields the fixed timeout message; a completed process has its
captured output classified by lines 221-226. (The generic
`except Exception` launch-failure branch at lines 218-219 concerns no claim
and is not modelled.) -/
def run_in_subprocess (child : ChildProcess) (timeout_sec : Nat) : Bool × Option PyStr :=
  match subprocess_run child timeout_sec with
  | .timeoutExpired _ => (false, some (timeout_message timeout_sec))
  | .completedProc st _ => classify_captured st

/-- The argv of the child interpreter (line 209): the interpreter, the `-I`
(isolated mode: no user site-packages, ignore `PYTHON*` variables) and `-B`
(no `.pyc` files) flags, and the temporary source path. -/
def launch_argv (pythonExe srcPath : PyStr) : List PyStr :=
  [pythonExe, lit "-I", lit "-B", srcPath]

/-- The environment given to the child (line 214): `env=os.environ.copy()`,
a full copy of the parent's environment. -/
def launch_env (parent_env : List (PyStr × PyStr)) : List (PyStr × PyStr) :=
  parent_env

/-- A string equals a truncation `b.take k` for some `k` iff it is a prefix
of `b` (this is what "a truncated prefix of `b`" denotes). -/
theorem exists_take_eq_iff {a b : PyStr} : (∃ k, a = b.take k) ↔ a <+: b := by
  constructor
  · rintro ⟨k, rfl⟩
    exact List.take_prefix k b
  · intro h
    exact ⟨a.length, List.prefix_iff_eq_take.mp h⟩

/-- C2 (counterexample): on captured output `"boom"` (no sentinel), the
returned error is `"RuntimeError: boom"`, which is not a truncated prefix of
the captured output — the code prepends a fixed tag to the truncated
output. -/
theorem C2_counterexample_error_not_a_truncated_output
    : run_in_subprocess ⟨0, some (lit "boom"), 0⟩ 45
        = (false, some (lit "RuntimeError: boom")) ∧
      ¬ ∃ k : Nat, (run_in_subprocess ⟨0, some (lit "boom"), 0⟩ 45).2
        = some ((lit "boom").take k) := by
  refine ⟨by decide, ?_⟩
  rintro ⟨k, hk⟩
  have h2 : (run_in_subprocess ⟨0, some (lit "boom"), 0⟩ 45).2
      = some (lit "RuntimeError: boom") := by decide
  rw [h2] at hk
  have heq : lit "RuntimeError: boom" = (lit "boom").take k := Option.some.inj hk
  have hpre : lit "RuntimeError: boom" <+: lit "boom" :=
    exists_take_eq_iff.mp ⟨k, heq⟩
  exact absurd hpre (by decide)

/-- C2 (amended): for a child that finishes within the timeout, the captured
output is classified in priority order — if the stripped output contains the
success sentinel the result is `(passed=true, error=None)`; else if it
contains the failure sentinel (first occurrence at `j`) the result is
not-passed with the stripped text after the sentinel as error; else the
result is not-passed with error `"RuntimeError: "` followed by the first 5000
characters of the stripped output (bounded, but not itself a prefix of the
output). -/
theorem C2_classification_priority_order
    (raw : PyStr) (rc : Int) (rt timeout_sec : Nat) (hrt : rt ≤ timeout_sec) :
    ((∃ i, occursAt PASS_SENTINEL (pyStrip raw) i) →
        run_in_subprocess ⟨rt, some raw, rc⟩ timeout_sec = (true, none)) ∧
    (¬ (∃ i, occursAt PASS_SENTINEL (pyStrip raw) i) →
      ∀ j, occursAt FAIL_SENTINEL (pyStrip raw) j →
        (∀ j' < j, ¬ occursAt FAIL_SENTINEL (pyStrip raw) j') →
        run_in_subprocess ⟨rt, some raw, rc⟩ timeout_sec
          = (false, some (pyStrip ((pyStrip raw).drop (j + FAIL_SENTINEL.length))))) ∧
    (¬ (∃ i, occursAt PASS_SENTINEL (pyStrip raw) i) →
      (∀ j, ¬ occursAt FAIL_SENTINEL (pyStrip raw) j) →
        run_in_subprocess ⟨rt, some raw, rc⟩ timeout_sec
          = (false, some (lit "RuntimeError: " ++ (pyStrip raw).take 5000))) := by
  have hrun : run_in_subprocess ⟨rt, some raw, rc⟩ timeout_sec
      = classify_captured (some raw) := by
    simp [run_in_subprocess, subprocess_run, Nat.not_lt.mpr hrt]
  refine ⟨?_, ?_, ?_⟩
  · rintro ⟨i, hi⟩
    rw [hrun]
    have hc : containsSub PASS_SENTINEL (pyStrip raw) = true :=
      containsSub_iff.mpr ⟨i, hi⟩
    simp [classify_captured, hc]
  · intro hnp j hj hmin
    rw [hrun]
    have hcp : containsSub PASS_SENTINEL (pyStrip raw) = false := by
      rcases Bool.eq_false_or_eq_true (containsSub PASS_SENTINEL (pyStrip raw)) with h | h
      · exact absurd (containsSub_iff.mp h) hnp
      · exact h
    have hfind : findSub FAIL_SENTINEL (pyStrip raw) = some j := by
      rcases findSub_of_occursAt hj with ⟨i, hij, hfi⟩
      rcases Nat.lt_or_ge i j with hlt | _
      · exact absurd (findSub_some_occursAt hfi) (hmin i hlt)
      · have : i = j := by omega
        rw [← this]
        exact hfi
    simp [classify_captured, hcp, hfind]
  · intro hnp hnf
    rw [hrun]
    have hcp : containsSub PASS_SENTINEL (pyStrip raw) = false := by
      rcases Bool.eq_false_or_eq_true (containsSub PASS_SENTINEL (pyStrip raw)) with h | h
      · exact absurd (containsSub_iff.mp h) hnp
      · exact h
    have hfind : findSub FAIL_SENTINEL (pyStrip raw) = none := by
      cases h : findSub FAIL_SENTINEL (pyStrip raw) with
      | none => rfl
      | some i => exact absurd (findSub_some_occursAt h) (hnf i)
    simp [classify_captured, hcp, hfind]

/-- Witness for the amended C2 at a concrete passing output. -/
theorem C2_classification_priority_order_witness :
    run_in_subprocess ⟨0, some (lit " ___QHE_PASS___\n"), 0⟩ 45 = (true, none) :=
  (C2_classification_priority_order (lit " ___QHE_PASS___\n") 0 0 45
    (by decide)).1 ⟨0, by decide⟩

/-- C3: whenever the child's runtime exceeds the wall-clock timeout,
`run_in_subprocess` returns `passed=false` with error exactly
`"Timeout(" + str(timeout_sec) + "s)"`, and the library call has killed the
child (the `childKilled` flag of the model's `TimeoutExpired` outcome). -/
theorem C3_timeout_fixed_message_and_child_killed
    (child : ChildProcess) (timeout_sec : Nat) (h : timeout_sec < child.runtime) :
    run_in_subprocess child timeout_sec
      = (false, some (lit "Timeout(" ++ (Nat.repr timeout_sec).data ++ lit "s)")) ∧
    subprocess_run child timeout_sec = .timeoutExpired true := by
  have hs : subprocess_run child timeout_sec = .timeoutExpired true := by
    simp [subprocess_run, h]
  exact ⟨by simp [run_in_subprocess, hs, timeout_message], hs⟩

/-- Witness for C3: a 3-second child under a 2-second timeout yields exactly
`"Timeout(2s)"`. -/
theorem C3_timeout_fixed_message_and_child_killed_witness :
    run_in_subprocess ⟨3, some [], 0⟩ 2 = (false, some (lit "Timeout(2s)")) ∧
    subprocess_run ⟨3, some [], 0⟩ 2 = .timeoutExpired true := by
  have h := C3_timeout_fixed_message_and_child_killed ⟨3, some [], 0⟩ 2 (by decide)
  exact ⟨h.1.trans (by decide), h.2⟩

/-- C10: classification never depends on the exit code or on how long the
child took (within the budget) — two completed children with the same
captured text classify identically — and an output containing both sentinels
classifies as passed with a null error (the success check has priority). -/
theorem C10_classification_ignores_exit_code
    (raw : PyStr) (rc1 rc2 : Int) (rt1 rt2 timeout_sec : Nat)
    (h1 : rt1 ≤ timeout_sec) (h2 : rt2 ≤ timeout_sec) :
    run_in_subprocess ⟨rt1, some raw, rc1⟩ timeout_sec
      = run_in_subprocess ⟨rt2, some raw, rc2⟩ timeout_sec ∧
    ((∃ i, occursAt PASS_SENTINEL (pyStrip raw) i) →
      (∃ j, occursAt FAIL_SENTINEL (pyStrip raw) j) →
      run_in_subprocess ⟨rt1, some raw, rc1⟩ timeout_sec = (true, none)) := by
  have e1 : run_in_subprocess ⟨rt1, some raw, rc1⟩ timeout_sec
      = classify_captured (some raw) := by
    simp [run_in_subprocess, subprocess_run, Nat.not_lt.mpr h1]
  have e2 : run_in_subprocess ⟨rt2, some raw, rc2⟩ timeout_sec
      = classify_captured (some raw) := by
    simp [run_in_subprocess, subprocess_run, Nat.not_lt.mpr h2]
  refine ⟨e1.trans e2.symm, ?_⟩
  rintro ⟨i, hi⟩ _
  rw [e1]
  have hc : containsSub PASS_SENTINEL (pyStrip raw) = true :=
    containsSub_iff.mpr ⟨i, hi⟩
  simp [classify_captured, hc]

/-- Witness for C10 on an output carrying both sentinels. -/
theorem C10_classification_ignores_exit_code_witness :
    run_in_subprocess ⟨0, some (lit "___QHE_FAIL___:x ___QHE_PASS___"), 1⟩ 45
      = (true, none) :=
  (C10_classification_ignores_exit_code (lit "___QHE_FAIL___:x ___QHE_PASS___")
      1 1 0 0 45 (by decide) (by decide)).2 ⟨17, by decide⟩ ⟨0, by decide⟩

/-- C9 (counterexample): a parent environment holding the model-API
credential is passed to the child unchanged — `env=os.environ.copy()` grants
the evaluated code the parent's `OPENAI_API_KEY`. -/
theorem C9_counterexample_credential_passed_to_child :
    (lit "OPENAI_API_KEY", lit "sk-test")
      ∈ launch_env [(lit "OPENAI_API_KEY", lit "sk-test")] := by
  decide

/-- C9 (amended): the child interpreter is launched with the `-I` (isolated)
and `-B` (no bytecode cache) flags, but its environment is the parent's full
environment copy: every parent variable, model-API credentials included, is
present in the child's environment. -/
theorem C9_launch_isolation_flags_but_full_env
    (pythonExe srcPath : PyStr) (parent_env : List (PyStr × PyStr)) :
    launch_argv pythonExe srcPath = [pythonExe, lit "-I", lit "-B", srcPath] ∧
    ∀ kv ∈ parent_env, kv ∈ launch_env parent_env :=
  ⟨rfl, fun _ h => h⟩

/-- Witness for the amended C9. -/
theorem C9_launch_isolation_flags_but_full_env_witness :
    (lit "PATH", lit "/bin") ∈ launch_env [(lit "PATH", lit "/bin")] :=
  (C9_launch_isolation_flags_but_full_env (lit "python3") (lit "eval_task.py")
    [(lit "PATH", lit "/bin")]).2 _ (by decide)

-- ---------------------------------------------------------------------------
-- CompletionProvider: extract_code_only (lines 119-128)
-- ---------------------------------------------------------------------------

/-- The backtick character. -/
def BACKTICK : Char := '\x60'

/-- The fence delimiter of `CODE_BLOCK_RE`. -/
def FENCE : PyStr := lit "\x60\x60\x60"

/-- The optional language tag of `CODE_BLOCK_RE`. -/
def PYTHON_TAG : PyStr := lit "python"

theorem FENCE_eq : FENCE = [BACKTICK, BACKTICK, BACKTICK] := by decide

/-- Lines 119-128: `extract_code_only`, with
`CODE_BLOCK_RE = re.compile(r"` three backticks `(?:python)?\s*(.*?)` three
backticks, `re.DOTALL)`. For this pattern, `re.search` semantics reduce to:
at the first fence occurrence, greedily take the optional `python` tag, then
the whitespace run, then capture lazily up to the next fence occurrence.
(A match starting at fence index `i` succeeds iff a fence occurrence exists
at index `≥ i+3`: backtracking over the optional tag and the whitespace run
can neither create nor destroy closing occurrences, because neither `python`
nor whitespace contains a backtick; for the same reason, if the match at the
first fence fails, no later starting position can match.) On a match the
result is the captured group `.strip()`, otherwise `text.strip()`. -/
def extract_code_only (text : PyStr) : PyStr :=
  match splitAtSub FENCE text with
  | none => pyStrip text
  | some (_, afterOpen) =>
    match splitAtSub FENCE
        ((if PYTHON_TAG.isPrefixOf afterOpen then afterOpen.drop PYTHON_TAG.length
          else afterOpen).dropWhile isPySpace) with
    | none => pyStrip text
    | some (interior, _) => pyStrip interior

theorem findSub_cons_of_not_prefixOf {pat : PyStr} {c : Char} {l : PyStr}
    (h : pat.isPrefixOf (c :: l) = false) :
    findSub pat (c :: l) = (findSub pat l).map (· + 1) := by
  conv_lhs => unfold findSub
  rw [h]
  simp

theorem findSub_fence_append {pre rest : PyStr} (h : ∀ c ∈ pre, c ≠ BACKTICK) :
    findSub FENCE (pre ++ rest) = (findSub FENCE rest).map (· + pre.length) := by
  induction pre with
  | nil =>
    simp only [List.nil_append, List.length_nil]
    cases hf : findSub FENCE rest <;> simp
  | cons c pre' ih =>
    have hc : c ≠ BACKTICK := h c (by simp)
    have hbeq : (BACKTICK == c) = false := beq_eq_false_iff_ne.mpr fun hh => hc hh.symm
    have hpre : FENCE.isPrefixOf (c :: (pre' ++ rest)) = false := by
      rw [FENCE_eq]
      simp [List.isPrefixOf, hbeq]
    rw [List.cons_append, findSub_cons_of_not_prefixOf hpre,
        ih fun c' hc' => h c' (by simp [hc'])]
    cases findSub FENCE rest <;> simp [Nat.add_assoc]

theorem findSub_eq_zero_of_isPrefixOf {pat s : PyStr} (h : pat.isPrefixOf s = true) :
    findSub pat s = some 0 := by
  cases s with
  | nil =>
    have hp : pat = [] := List.prefix_nil.mp (isPrefixOf_eq_true_iff.mp h)
    simp [findSub, hp]
  | cons c l =>
    unfold findSub
    rw [h]
    simp

theorem splitAtSub_fence_append {pre rest : PyStr} (h : ∀ c ∈ pre, c ≠ BACKTICK) :
    splitAtSub FENCE (pre ++ (FENCE ++ rest)) = some (pre, rest) := by
  have h0 : FENCE.isPrefixOf (FENCE ++ rest) = true :=
    isPrefixOf_eq_true_iff.mpr ⟨rest, rfl⟩
  have h1 : findSub FENCE (pre ++ (FENCE ++ rest)) = some pre.length := by
    rw [findSub_fence_append h, findSub_eq_zero_of_isPrefixOf h0]
    simp
  unfold splitAtSub
  rw [h1]
  simp only [Option.map_some']
  congr 1
  refine Prod.ext ?_ ?_
  · show (pre ++ (FENCE ++ rest)).take pre.length = pre
    rw [List.take_left]
  · show (pre ++ (FENCE ++ rest)).drop (pre.length + FENCE.length) = rest
    rw [← List.append_assoc, ← List.length_append, List.drop_left]

/-- Splitting `dropWhile` over an append by whether the first part survives. -/
theorem dropWhile_append_eq (p : Char → Bool) (s w : PyStr) :
    (s ++ w).dropWhile p
      = if (s.dropWhile p).isEmpty then w.dropWhile p else s.dropWhile p ++ w := by
  induction s with
  | nil => simp
  | cons c s' ih =>
    by_cases hc : p c = true
    · simpa [List.dropWhile, hc] using ih
    · simp [List.dropWhile, hc]

theorem dropWhile_all_eq_nil {p : Char → Bool} {w : PyStr}
    (h : ∀ c ∈ w, p c = true) : w.dropWhile p = [] :=
  List.dropWhile_eq_nil_iff.mpr h

theorem dropWhile_append_all {p : Char → Bool} {w z : PyStr}
    (h : ∀ c ∈ w, p c = true) : (w ++ z).dropWhile p = z.dropWhile p := by
  rw [dropWhile_append_eq]
  simp [dropWhile_all_eq_nil h]

theorem dropWhile_dropWhile_self (p : Char → Bool) (s : PyStr) :
    (s.dropWhile p).dropWhile p = s.dropWhile p := by
  induction s with
  | nil => rfl
  | cons c s' ih =>
    by_cases hc : p c = true
    · simpa [List.dropWhile, hc] using ih
    · simp [List.dropWhile, hc]

theorem mem_dropWhile_imp {p : Char → Bool} {s : PyStr} {c : Char}
    (h : c ∈ s.dropWhile p) : c ∈ s := by
  induction s with
  | nil => simp at h
  | cons a s' ih =>
    by_cases ha : p a = true
    · simp only [List.dropWhile, ha] at h
      exact List.mem_cons_of_mem a (ih h)
    · simpa [List.dropWhile, ha] using h

/-- Stripping after dropping leading whitespace is plain stripping. -/
theorem pyStrip_dropWhile (s : PyStr) :
    pyStrip (s.dropWhile isPySpace) = pyStrip s := by
  unfold pyStrip
  rw [dropWhile_dropWhile_self]

/-- Appending trailing whitespace does not change the stripped text. -/
theorem pyStrip_append_ws {s w : PyStr} (h : ∀ c ∈ w, isPySpace c = true) :
    pyStrip (s ++ w) = pyStrip s := by
  unfold pyStrip
  rw [dropWhile_append_eq]
  by_cases he : (s.dropWhile isPySpace).isEmpty = true
  · rw [if_pos he, dropWhile_all_eq_nil h]
    rw [List.isEmpty_iff] at he
    rw [he]
  · rw [if_neg he, List.reverse_append]
    rw [dropWhile_append_all fun c hc => h c (by simpa using hc)]

/-- The some-branch of `extract_code_only`, given the two splits. -/
theorem extract_code_only_eq_of_split {text before after interior rest2 : PyStr}
    (h1 : splitAtSub FENCE text = some (before, after))
    (h2 : splitAtSub FENCE
        ((if PYTHON_TAG.isPrefixOf after then after.drop PYTHON_TAG.length
          else after).dropWhile isPySpace) = some (interior, rest2)) :
    extract_code_only text = pyStrip interior := by
  unfold extract_code_only
  rw [h1]
  simp only [h2]

/-- The no-close branch of `extract_code_only`: an opening fence with no
closing fence after the optional tag and whitespace run falls back to the
whole trimmed text. -/
theorem extract_code_only_eq_of_no_close {text before after : PyStr}
    (h1 : splitAtSub FENCE text = some (before, after))
    (h2 : splitAtSub FENCE
        ((if PYTHON_TAG.isPrefixOf after then after.drop PYTHON_TAG.length
          else after).dropWhile isPySpace) = none) :
    extract_code_only text = pyStrip text := by
  unfold extract_code_only
  rw [h1]
  simp only [h2]

/-- Dropping a whitespace run is dropping a prefix of known length. -/
theorem dropWhile_eq_drop (p : Char → Bool) : ∀ s : PyStr,
    s.dropWhile p = s.drop (s.takeWhile p).length
  | [] => rfl
  | c :: s => by
    by_cases hc : p c = true
    · simp [List.dropWhile, List.takeWhile, hc, dropWhile_eq_drop p s]
    · simp [List.dropWhile, List.takeWhile, hc]

/-- An occurrence in a suffix is an occurrence in the whole text. -/
theorem occursAt_drop {pat s : PyStr} {m k : Nat}
    (h : occursAt pat (s.drop m) k) : occursAt pat s (m + k) := by
  unfold occursAt at h ⊢
  rwa [List.drop_drop] at h

/-- After the whitespace separator, the first fence occurrence closes the
block: the interior is the separator-stripped code text. -/
theorem splitAtSub_fence_after_ws {ws code post : PyStr}
    (hws : ∀ c ∈ ws, isPySpace c = true) (hcode : ∀ c ∈ code, c ≠ BACKTICK) :
    splitAtSub FENCE ((ws ++ (code ++ (FENCE ++ post))).dropWhile isPySpace)
      = some (code.dropWhile isPySpace, post) := by
  rw [dropWhile_append_all hws]
  by_cases he : (code.dropWhile isPySpace).isEmpty = true
  · have hcd : code.dropWhile isPySpace = [] := List.isEmpty_iff.mp he
    have hfp : (FENCE ++ post).dropWhile isPySpace = FENCE ++ post := by
      rw [FENCE_eq]
      simp [List.dropWhile, show isPySpace BACKTICK = false by decide]
    rw [dropWhile_append_eq, if_pos he, hfp, hcd]
    have h := @splitAtSub_fence_append [] post (by simp)
    simpa using h
  · rw [dropWhile_append_eq, if_neg he]
    exact splitAtSub_fence_append fun c hc => hcode c (mem_dropWhile_imp hc)

/-- An occurrence of the (nonempty) fence is inside the text: index bound. -/
theorem occursAt_fence_lt_length {s : PyStr} {j : Nat}
    (h : occursAt FENCE s j) : j < s.length := by
  rcases h with ⟨t, ht⟩
  have hlen := congrArg List.length ht
  rw [List.length_append, List.length_drop, FENCE_eq] at hlen
  simp at hlen
  omega

/-- Reduction of the no-complete-block condition to a decidable bounded
check over the text's indices. -/
theorem no_fence_pair_of_bounded {s : PyStr}
    (h : ∀ i < s.length, ∀ c < s.length,
        occursAt FENCE s i → occursAt FENCE s c → c < i + 3) :
    ∀ i c, occursAt FENCE s i → occursAt FENCE s c → c < i + 3 :=
  fun i c h1 h2 =>
    h i (occursAt_fence_lt_length h1) c (occursAt_fence_lt_length h2) h1 h2

/-- C7: for every response, `extract_code_only` returns the trimmed response
verbatim when the response contains no complete fenced block (no pair of
fence occurrences at distance ≥ 3 — this includes a lone unclosed fence),
and the stripped interior of the fenced block when one is present: both for
a `python`-tagged block with any whitespace separator and for an untagged
block, with backtick-free preceding text and interior. -/
theorem C7_extract_fenced_interior_or_trimmed_text :
    (∀ text : PyStr,
        (∀ i c, occursAt FENCE text i → occursAt FENCE text c → c < i + 3) →
        extract_code_only text = pyStrip text) ∧
    (∀ pre ws code post : PyStr,
        (∀ c ∈ pre, c ≠ BACKTICK) → (∀ c ∈ ws, isPySpace c = true) →
        (∀ c ∈ code, c ≠ BACKTICK) →
        extract_code_only
            (pre ++ (FENCE ++ (PYTHON_TAG ++ (ws ++ (code ++ (FENCE ++ post))))))
          = pyStrip code) ∧
    (∀ pre ws code post : PyStr,
        (∀ c ∈ pre, c ≠ BACKTICK) → (∀ c ∈ ws, isPySpace c = true) →
        (∀ c ∈ code, c ≠ BACKTICK) →
        PYTHON_TAG.isPrefixOf (ws ++ (code ++ (FENCE ++ post))) = false →
        extract_code_only (pre ++ (FENCE ++ (ws ++ (code ++ (FENCE ++ post)))))
          = pyStrip code) := by
  refine ⟨?_, ?_, ?_⟩
  · intro text hno
    cases hf : findSub FENCE text with
    | none => simp [extract_code_only, splitAtSub, hf]
    | some i0 =>
      have h1 : splitAtSub FENCE text
          = some (text.take i0, text.drop (i0 + FENCE.length)) := by
        simp [splitAtSub, hf]
      have hFlen : FENCE.length = 3 := rfl
      have hA : ∃ m, i0 + 3 ≤ m ∧
          (if PYTHON_TAG.isPrefixOf (text.drop (i0 + FENCE.length))
           then (text.drop (i0 + FENCE.length)).drop PYTHON_TAG.length
           else text.drop (i0 + FENCE.length)) = text.drop m := by
        by_cases ht : PYTHON_TAG.isPrefixOf (text.drop (i0 + FENCE.length)) = true
        · refine ⟨i0 + FENCE.length + PYTHON_TAG.length, by rw [hFlen]; omega, ?_⟩
          rw [if_pos ht, List.drop_drop]
        · exact ⟨i0 + FENCE.length, by rw [hFlen], by rw [if_neg ht]⟩
      rcases hA with ⟨m, hm, hAeq⟩
      have hbody : (if PYTHON_TAG.isPrefixOf (text.drop (i0 + FENCE.length))
           then (text.drop (i0 + FENCE.length)).drop PYTHON_TAG.length
           else text.drop (i0 + FENCE.length)).dropWhile isPySpace
          = text.drop (m + ((text.drop m).takeWhile isPySpace).length) := by
        rw [hAeq, dropWhile_eq_drop, List.drop_drop]
      have hfnone : findSub FENCE
          (text.drop (m + ((text.drop m).takeWhile isPySpace).length)) = none := by
        cases hf2 : findSub FENCE
            (text.drop (m + ((text.drop m).takeWhile isPySpace).length)) with
        | none => rfl
        | some k =>
          exfalso
          have hocc := occursAt_drop (findSub_some_occursAt hf2)
          have hlt := hno i0 (m + ((text.drop m).takeWhile isPySpace).length + k)
            (findSub_some_occursAt hf) hocc
          omega
      have h2 : splitAtSub FENCE
          ((if PYTHON_TAG.isPrefixOf (text.drop (i0 + FENCE.length))
            then (text.drop (i0 + FENCE.length)).drop PYTHON_TAG.length
            else text.drop (i0 + FENCE.length)).dropWhile isPySpace) = none := by
        rw [hbody]
        simp [splitAtSub, hfnone]
      exact extract_code_only_eq_of_no_close h1 h2
  · intro pre ws code post hpre hws hcode
    have hsplit1 : splitAtSub FENCE
        (pre ++ (FENCE ++ (PYTHON_TAG ++ (ws ++ (code ++ (FENCE ++ post))))))
        = some (pre, PYTHON_TAG ++ (ws ++ (code ++ (FENCE ++ post)))) :=
      splitAtSub_fence_append hpre
    have htag : PYTHON_TAG.isPrefixOf
        (PYTHON_TAG ++ (ws ++ (code ++ (FENCE ++ post)))) = true :=
      isPrefixOf_eq_true_iff.mpr ⟨_, rfl⟩
    have hdrop : (PYTHON_TAG ++ (ws ++ (code ++ (FENCE ++ post)))).drop
        PYTHON_TAG.length = ws ++ (code ++ (FENCE ++ post)) :=
      List.drop_left _ _
    have hres := extract_code_only_eq_of_split hsplit1
      (by rw [if_pos htag, hdrop]; exact splitAtSub_fence_after_ws hws hcode)
    rw [hres]
    exact pyStrip_dropWhile code
  · intro pre ws code post hpre hws hcode hnp
    have hsplit1 : splitAtSub FENCE
        (pre ++ (FENCE ++ (ws ++ (code ++ (FENCE ++ post)))))
        = some (pre, ws ++ (code ++ (FENCE ++ post))) :=
      splitAtSub_fence_append hpre
    have hres := extract_code_only_eq_of_split hsplit1
      (by rw [if_neg (by rw [hnp]; exact Bool.false_ne_true)]
          exact splitAtSub_fence_after_ws hws hcode)
    rw [hres]
    exact pyStrip_dropWhile code

/-- Witness for C7: a prose-wrapped tagged fenced block yields its stripped
interior, and a response with a lone unclosed fence yields the trimmed
response. -/
theorem C7_extract_fenced_interior_or_trimmed_text_witness :
    extract_code_only
        (lit "See below.```python\ndef f(x):\n    return x\n``` Hope this helps!")
      = lit "def f(x):\n    return x" ∧
    extract_code_only (lit " ```python broken ") = lit "```python broken" := by
  constructor
  · have h := C7_extract_fenced_interior_or_trimmed_text.2.1
      (lit "See below.") (lit "\n") (lit "def f(x):\n    return x\n")
      (lit " Hope this helps!") (by decide) (by decide) (by decide)
    have heq : lit "See below.```python\ndef f(x):\n    return x\n``` Hope this helps!"
        = lit "See below." ++ (FENCE ++ (PYTHON_TAG ++ (lit "\n" ++
            (lit "def f(x):\n    return x\n" ++ (FENCE ++ lit " Hope this helps!"))))) := by
      decide
    rw [heq, h]
    decide
  · have h := C7_extract_fenced_interior_or_trimmed_text.1
      (lit " ```python broken ") (no_fence_pair_of_bounded (by decide))
    rw [h]
    decide

-- ---------------------------------------------------------------------------
-- TaskSource: load_tasks (lines 231-245)
-- ---------------------------------------------------------------------------

/-- A dataset row (lines 234-243): `entry_point`, `prompt`, `test` are
required (`row["..."]`); `task_id` and `difficulty_scale` are read with
`row.get(...)`, so a missing key yields the default. -/
structure Row where
  task_id : Option PyStr
  entry_point : PyStr
  prompt : PyStr
  test : PyStr
  difficulty_scale : Option PyStr
deriving DecidableEq

/-- The `Task` dataclass (lines 68-75). -/
structure Task where
  idx : Nat
  task_id : PyStr
  entry_point : PyStr
  prompt : PyStr
  test : PyStr
  difficulty_scale : Option PyStr
deriving DecidableEq

/-- Lines 237-244: the Task built from the row at index `i`;
`row.get("task_id", f"{i}")` falls back to the decimal index,
`row.get("difficulty_scale")` defaults to `None`. -/
def mkTask (i : Nat) (row : Row) : Task :=
  { idx := i
    task_id := row.task_id.getD (lit (Nat.repr i))
    entry_point := row.entry_point
    prompt := row.prompt
    test := row.test
    difficulty_scale := row.difficulty_scale }

/-- The enumerated loop of lines 234-244: `for i, row in enumerate(ds)`,
`if limit is not None and i >= limit: break`. -/
def load_tasksAux (limit : Option Nat) : Nat → List Row → List Task
  | _, [] => []
  | i, row :: rows =>
    match limit with
    | some l => if l ≤ i then [] else mkTask i row :: load_tasksAux limit (i + 1) rows
    | none => mkTask i row :: load_tasksAux limit (i + 1) rows

/-- Lines 231-245: `load_tasks(dataset, split, limit)` as a function of the
dataset's row sequence. -/
def load_tasks (rows : List Row) (limit : Option Nat) : List Task :=
  load_tasksAux limit 0 rows

/-- The Task fields copied verbatim from a row. -/
def taskFields (t : Task) : PyStr × PyStr × PyStr × Option PyStr :=
  (t.entry_point, t.prompt, t.test, t.difficulty_scale)

/-- The corresponding row fields. -/
def rowFields (r : Row) : PyStr × PyStr × PyStr × Option PyStr :=
  (r.entry_point, r.prompt, r.test, r.difficulty_scale)

theorem load_tasksAux_none_map (rows : List Row) :
    ∀ i, (load_tasksAux none i rows).map taskFields = rows.map rowFields := by
  induction rows with
  | nil => intro i; rfl
  | cons row rows ih =>
    intro i
    simp only [load_tasksAux, List.map_cons, ih]
    rfl

theorem load_tasksAux_some_eq_take (l : Nat) (rows : List Row) :
    ∀ i, load_tasksAux (some l) i rows = load_tasksAux none i (rows.take (l - i)) := by
  induction rows with
  | nil => intro i; simp [load_tasksAux]
  | cons row rows ih =>
    intro i
    by_cases hli : l ≤ i
    · have : l - i = 0 := by omega
      simp [load_tasksAux, hli, this]
    · have hk : l - i = (l - (i + 1)) + 1 := by omega
      simp only [load_tasksAux, if_neg hli, hk, List.take_succ_cons]
      rw [ih (i + 1)]

theorem load_tasksAux_none_getElem (rows : List Row) :
    ∀ j i, (load_tasksAux none j rows)[i]? = (rows[i]?).map (mkTask (j + i)) := by
  induction rows with
  | nil => intro j i; simp [load_tasksAux]
  | cons row rows ih =>
    intro j i
    cases i with
    | zero => simp [load_tasksAux]
    | succ i' =>
      simp only [load_tasksAux, List.getElem?_cons_succ]
      rw [ih (j + 1) i', show j + 1 + i' = j + (i' + 1) by omega]

/-- C8: `load_tasks` emits tasks in the dataset's row order with
`entry_point`, `prompt`, `test`, and the difficulty label passed through
unmodified; a set `limit` materializes exactly the first `limit` rows; and a
row with no `task_id` gets the decimal row index as its identifier (and each
task records its row index). -/
theorem C8_load_tasks_order_limit_and_id_fallback :
    (∀ rows : List Row,
        (load_tasks rows none).map taskFields = rows.map rowFields) ∧
    (∀ (rows : List Row) (l : Nat),
        load_tasks rows (some l) = load_tasks (rows.take l) none) ∧
    (∀ (rows : List Row) (i : Nat),
        (load_tasks rows none)[i]? = (rows[i]?).map (mkTask i)) ∧
    (∀ (rows : List Row) (i : Nat) (r : Row), rows[i]? = some r →
        r.task_id = none →
        ((load_tasks rows none)[i]?).map Task.task_id = some (lit (Nat.repr i)) ∧
        ((load_tasks rows none)[i]?).map Task.idx = some i) := by
  refine ⟨?_, ?_, ?_, ?_⟩
  · intro rows
    exact load_tasksAux_none_map rows 0
  · intro rows l
    unfold load_tasks
    rw [load_tasksAux_some_eq_take]
    simp
  · intro rows i
    unfold load_tasks
    rw [load_tasksAux_none_getElem rows 0 i]
    simp
  · intro rows i r hr hid
    unfold load_tasks
    rw [load_tasksAux_none_getElem rows 0 i, hr]
    simp [mkTask, hid]

/-- Witness for C8 on a two-row dataset whose second row lacks a task id. -/
theorem C8_load_tasks_order_limit_and_id_fallback_witness :
    ((load_tasks
        [⟨some (lit "QHE-0"), lit "f", lit "p0", lit "t0", some (lit "basic")⟩,
         ⟨none, lit "g", lit "p1", lit "t1", none⟩] none)[1]?).map Task.task_id
      = some (lit "1") := by
  have h := (C8_load_tasks_order_limit_and_id_fallback.2.2.2
    [⟨some (lit "QHE-0"), lit "f", lit "p0", lit "t0", some (lit "basic")⟩,
     ⟨none, lit "g", lit "p1", lit "t1", none⟩] 1
    ⟨none, lit "g", lit "p1", lit "t1", none⟩ (by decide) rfl).1
  rw [h]
  decide

-- ---------------------------------------------------------------------------
-- ResultAggregator: summary & persistence (lines 77-89 and 317-347)
-- ---------------------------------------------------------------------------

/-- The `Result` dataclass (lines 77-89); the float `latency_s` and the
constant `model` / `file_path` columns are read by no claim and omitted. -/
structure Result where
  task_id : PyStr
  entry_point : PyStr
  passed : Bool
  error : Option PyStr
  gen_tokens : Option Nat
  prompt_chars : Nat
  completion_chars : Nat
  difficulty_scale : Option PyStr
deriving DecidableEq

/-- Python `str < str`: lexicographic comparison by code point. -/
def pyStrLt : PyStr → PyStr → Bool
  | [], [] => false
  | [], _ :: _ => true
  | _ :: _, [] => false
  | a :: as, b :: bs => if a < b then true else if b < a then false else pyStrLt as bs

/-- Python 3 `<` on difficulty labels: defined between two strings; any
comparison involving `None` raises `TypeError` (the message direction varies
with the operand order; a representative fixed text is used). -/
def pyLtDifficulty : Option PyStr → Option PyStr → Except PyStr Bool
  | some a, some b => .ok (pyStrLt a b)
  | _, _ => .error
      (lit "TypeError: \x27<\x27 not supported between instances of \x27NoneType\x27 and \x27str\x27")

/-- Insertion step of the comparison sort, in the `Except` monad so a
`TypeError` raised by a comparison aborts it. -/
def pySortInsert (x : Option PyStr) : List (Option PyStr) → Except PyStr (List (Option PyStr))
  | [] => .ok [x]
  | y :: ys => do
    if ← pyLtDifficulty x y then
      .ok (x :: y :: ys)
    else
      let r ← pySortInsert x ys
      .ok (y :: r)

/-- Line 344, `sorted(...)`: a comparison sort using only `<`, modelled as
insertion sort; on an all-string input it succeeds with the ascending
ordering, and with both `None` and a string present some `None`-vs-`str`
comparison is reached and raises. -/
def pySorted : List (Option PyStr) → Except PyStr (List (Option PyStr))
  | [] => .ok []
  | x :: xs => do pySortInsert x (← pySorted xs)

/-- The summary record of lines 331-346 (the counts and ratio; the constant
`model`/`dataset`/`split`/`timestamp` echo fields are read by no claim).
`by_difficulty` maps each key to its `(passed, total)` counts, in key
order. -/
structure RunSummary where
  pass_at_1 : Rat
  passed : Nat
  total : Nat
  by_difficulty : List (Option PyStr × Nat × Nat)
deriving DecidableEq

/-- Lines 318-320: `pass_at_1 = passed_n / total_n if total_n else 0.0`
(rationals stand in for floats; the claims under check only involve exact
values). -/
def pass_at_1_of (results : List Result) : Rat :=
  if results.length = 0 then 0
  else ((results.filter fun r => r.passed).length : Rat) / (results.length : Rat)

/-- Lines 317-347, the summary-and-persistence tail of `evaluate`, in
execution order: the counts and ratio (318-320) are pure; the CSV write
(324-328) evaluates `asdict(results[0])` for the field names, which raises
`IndexError` on an empty result list; the summary dict (331-346) computes
`sorted({r.difficulty_scale for r in results})` — the set becomes `dedup`,
the sort is `pySorted` — and then the per-key counts (341-342); only then is
`summary.json` written. -/
def summary_and_persist (results : List Result) : Except PyStr RunSummary :=
  match results with
  | [] => .error (lit "IndexError: list index out of range")
  | _ :: _ =>
    match pySorted ((results.map fun r => r.difficulty_scale).dedup) with
    | .error e => .error e
    | .ok keys =>
      .ok { pass_at_1 := pass_at_1_of results
            passed := (results.filter fun r => r.passed).length
            total := results.length
            by_difficulty := keys.map fun k =>
              (k, (results.filter fun r => r.passed && r.difficulty_scale == k).length,
                  (results.filter fun r => r.difficulty_scale == k).length) }

deriving instance DecidableEq for Except

/-- C4: on an empty recorded result list the summary-and-persistence step
does not complete — the CSV field-name computation `asdict(results[0])`
raises `IndexError`, so the summary is never written — even though the
`pass_at_1` computation itself is guarded and yields `0.0`. -/
theorem C4_empty_result_set_raises_IndexError :
    summary_and_persist [] = .error (lit "IndexError: list index out of range") ∧
    pass_at_1_of [] = 0 := by
  exact ⟨rfl, rfl⟩

/-- C5: mixing labelled and unlabelled results makes
`sorted({r.difficulty_scale ...})` compare `None` with a string and raise
`TypeError`, aborting the summary step; with homogeneous results (all
labelled, or all unlabelled) the step succeeds and `by_difficulty` has
exactly the observed labels as keys with their (passed, total) counts. -/
theorem C5_mixed_difficulty_labels_raise_TypeError :
    summary_and_persist
        [{ task_id := lit "t0", entry_point := lit "f", passed := true, error := none,
           gen_tokens := none, prompt_chars := 1, completion_chars := 1,
           difficulty_scale := some (lit "basic") },
         { task_id := lit "t1", entry_point := lit "g", passed := false, error := none,
           gen_tokens := none, prompt_chars := 1, completion_chars := 1,
           difficulty_scale := none }]
      = .error (lit "TypeError: \x27<\x27 not supported between instances of \x27NoneType\x27 and \x27str\x27") ∧
    summary_and_persist
        [{ task_id := lit "t0", entry_point := lit "f", passed := true, error := none,
           gen_tokens := none, prompt_chars := 1, completion_chars := 1,
           difficulty_scale := some (lit "hard") },
         { task_id := lit "t1", entry_point := lit "g", passed := false, error := none,
           gen_tokens := none, prompt_chars := 1, completion_chars := 1,
           difficulty_scale := some (lit "basic") }]
      = .ok { pass_at_1 := (1 : Rat) / 2, passed := 1, total := 2,
              by_difficulty := [(some (lit "basic"), 0, 1), (some (lit "hard"), 1, 1)] } ∧
    summary_and_persist
        [{ task_id := lit "t0", entry_point := lit "f", passed := false, error := none,
           gen_tokens := none, prompt_chars := 1, completion_chars := 1,
           difficulty_scale := none }]
      = .ok { pass_at_1 := 0, passed := 0, total := 1,
              by_difficulty := [(none, 0, 1)] } := by
  refine ⟨rfl, rfl, ?_⟩
  have hone : summary_and_persist
      [{ task_id := lit "t0", entry_point := lit "f", passed := false, error := none,
         gen_tokens := none, prompt_chars := 1, completion_chars := 1,
         difficulty_scale := none }]
      = .ok { pass_at_1 := pass_at_1_of
                [{ task_id := lit "t0", entry_point := lit "f", passed := false,
                   error := none, gen_tokens := none, prompt_chars := 1,
                   completion_chars := 1, difficulty_scale := none }],
              passed := 0, total := 1, by_difficulty := [(none, 0, 1)] } := rfl
  rw [hone]
  norm_num [pass_at_1_of]

-- ---------------------------------------------------------------------------
-- CompletionProvider failure handling & Driver (lines 133-167, 247-316)
-- ---------------------------------------------------------------------------

/-- What the model call produced for a task: a raw completion with an
optional token count, or a transport/protocol failure — `call_openai` catches
`(APIStatusError, APIConnectionError, APIError)` and re-raises `RuntimeError`
(lines 154-155), which the driver catches (lines 280-282). -/
inductive CallOutcome
  | ok (raw : PyStr) (tokens : Option Nat)
  | apiError (msg : PyStr)

/-- Lines 269-284: on a successful call the raw text is code-extracted; on
`RuntimeError` the driver sets `raw_text = ""`, `output_tokens = None` and
falls through to `completion_text = extract_code_only(raw_text)`. -/
def completion_of_call : CallOutcome → PyStr × Option Nat
  | .ok raw tok => (extract_code_only raw, tok)
  | .apiError _ => (extract_code_only [], none)

/-- Lines 260-315, one iteration of the task loop: obtain the completion,
assemble the program (line 288), execute it (line 297; the child's behavior
is a function of the program text), and build the task's `Result`. -/
def process_task (t : Task) (call : CallOutcome) (childOf : PyStr → ChildProcess)
    (timeout_sec : Nat) : Result :=
  let ct := completion_of_call call
  let program := EXEC_TEMPLATE_format t.prompt ct.1 t.test t.entry_point
  let pe := run_in_subprocess (childOf program) timeout_sec
  { task_id := t.task_id
    entry_point := t.entry_point
    passed := pe.1
    error := pe.2
    gen_tokens := ct.2
    prompt_chars := t.prompt.length
    completion_chars := ct.1.length
    difficulty_scale := t.difficulty_scale }

/-- Lines 247-316: the driver loop. A dataset-load failure propagates (line
255 is outside any handler); otherwise every task yields exactly one
`Result`. -/
def evaluate_loop (load : Except PyStr (List Task)) (calls : Nat → CallOutcome)
    (childOf : PyStr → ChildProcess) (timeout_sec : Nat) : Except PyStr (List Result) :=
  match load with
  | .error e => .error e
  | .ok tasks => .ok (tasks.map fun t => process_task t (calls t.idx) childOf timeout_sec)

/-- C6: a transport/protocol failure of the model call is converted to an
empty completion with unknown token count; the task is still assembled and
executed exactly as if the model had returned an empty completion; and the
loop aborts only when the dataset load itself failed. -/
theorem C6_api_error_empty_completion_run_continues
    (t : Task) (msg : PyStr) (childOf : PyStr → ChildProcess) (timeout_sec : Nat) :
    completion_of_call (.apiError msg) = ([], none) ∧
    process_task t (.apiError msg) childOf timeout_sec
      = process_task t (.ok [] none) childOf timeout_sec ∧
    (∀ (load : Except PyStr (List Task)) (calls : Nat → CallOutcome),
      (∃ e, evaluate_loop load calls childOf timeout_sec = .error e)
        ↔ (∃ e, load = .error e)) := by
  refine ⟨rfl, rfl, ?_⟩
  intro load calls
  cases load with
  | error e => simp [evaluate_loop]
  | ok tasks => simp [evaluate_loop]

end QHE
